import Mathlib

/-!
Shallow embedding of the Showdown planning-poker server
(`src/server/src/services/RoomService.ts`, `src/server/src/handlers/roomHandlers.ts`).

Modelling conventions:
* `uuidv4()` results are threaded in as explicit parameters (fresh-id supply);
* `new Date()` timestamps are `Nat` ticks passed as a `now` argument;
* the `Map<string, Room>` store is factored out: Store operations act on the
  `Room` they resolve, with `Option` capturing the `null` returns of the
  TypeScript methods, and the Gateway handlers act on the `Option Room`
  that the room-id lookup produced;
* card values (`number | string` in TypeScript) become an inductive with a
  rational and a string constructor.
-/

inductive RoomStatus
  | waiting
  | active
  | completed
deriving DecidableEq, Repr

inductive RoundStatus
  | voting
  | revealed
deriving DecidableEq, Repr

inductive CardValue
  | num (q : ℚ)
  | str (s : String)
deriving DecidableEq, Repr

structure Vote where
  userId : String
  userName : String
  value : CardValue
  votedAt : Nat
deriving DecidableEq, Repr

structure Round where
  id : String
  name : String
  status : RoundStatus
  votes : List Vote
  revealedAt : Option Nat
deriving DecidableEq, Repr

structure Participant where
  id : String
  name : String
  isCreator : Bool
  connectedAt : Nat
  isOnline : Bool
  socketId : Option String
deriving DecidableEq, Repr

structure RoomSettings where
  anonymous : Bool
  cardValues : List CardValue
deriving DecidableEq, Repr

/-- `payload.settings` is an optional partial override; a missing key keeps
the default (TypeScript object-spread semantics). -/
structure SettingsOverride where
  anonymous : Option Bool
  cardValues : Option (List CardValue)
deriving DecidableEq, Repr

structure Room where
  id : String
  name : String
  createdBy : String
  createdAt : Nat
  settings : RoomSettings
  rounds : List Round
  currentRoundIndex : Nat
  status : RoomStatus
  participants : List Participant
deriving DecidableEq, Repr

structure CreateRoomPayload where
  userName : String
  roomName : String
  roundNames : List String
  settings : SettingsOverride
deriving DecidableEq, Repr

/-- `DEFAULT_ROOM_SETTINGS` of `RoomService.ts`:
`{ anonymous: false, cardValues: [0.5, 1, 3, 5, 8, 13, 21, '☕', '?'] }`. -/
def DEFAULT_ROOM_SETTINGS : RoomSettings :=
  { anonymous := false
    cardValues :=
      [CardValue.num (mkRat 1 2), CardValue.num 1, CardValue.num 3,
       CardValue.num 5, CardValue.num 8, CardValue.num 13, CardValue.num 21,
       CardValue.str "☕", CardValue.str "?"] }

/-- `{ ...DEFAULT_ROOM_SETTINGS, ...payload.settings }`: per-key override. -/
def mergeSettings (o : SettingsOverride) : RoomSettings :=
  { anonymous := o.anonymous.getD DEFAULT_ROOM_SETTINGS.anonymous
    cardValues := o.cardValues.getD DEFAULT_ROOM_SETTINGS.cardValues }

/-- `RoomService.createRoom` (lines 66–111).  `roomId`, `userId` and the
per-round ids (`rid i` for the `i`-th round) stand for the `uuidv4()` calls,
`now` for `new Date()`. -/
def createRoom (payload : CreateRoomPayload) (roomId userId : String)
    (rid : Nat → String) (now : Nat) : Room × String :=
  let creator : Participant :=
    { id := userId
      name := payload.userName
      isCreator := true
      connectedAt := now
      isOnline := true
      socketId := none }
  let rounds : List Round :=
    (List.range payload.roundNames.length).zip payload.roundNames |>.map
      (fun p =>
        { id := rid p.1
          name := p.2
          status := RoundStatus.voting
          votes := []
          revealedAt := none })
  let settings := mergeSettings payload.settings
  let room : Room :=
    { id := roomId
      name := payload.roomName
      createdBy := userId
      createdAt := now
      settings := settings
      rounds := rounds
      currentRoundIndex := 0
      status := RoomStatus.waiting
      participants := [creator] }
  (room, userId)

/-- Mutation of the first list element satisfying `pred` (the TypeScript
`find`-then-assign idiom); later elements are untouched. -/
def updateFirst (pred : Participant → Bool) (f : Participant → Participant) :
    List Participant → List Participant
  | [] => []
  | p :: ps => if pred p then f p :: ps else p :: updateFirst pred f ps

/-- `RoomService.addParticipant` (lines 137–171), on the resolved room.
`freshId` stands for the `uuidv4()` call, `now` for `new Date()`. -/
def addParticipant (room : Room) (userName : String) (freshId : String)
    (now : Nat) : Room × String :=
  match room.participants.find? (fun p => p.name == userName) with
  | some existingParticipant =>
      ({ room with
          participants :=
            updateFirst (fun p => p.name == userName)
              (fun p => { p with isOnline := true }) room.participants },
        existingParticipant.id)
  | none =>
      let participant : Participant :=
        { id := freshId
          name := userName
          isCreator := false
          connectedAt := now
          isOnline := true
          socketId := none }
      ({ room with participants := room.participants ++ [participant] }, freshId)

/-- `RoomService.removeParticipant` (lines 176–186), on the resolved room. -/
def removeParticipant (room : Room) (userId : String) : Room :=
  { room with participants := room.participants.filter (fun p => p.id != userId) }

/-- `RoomService.setParticipantOnline` (lines 191–202), on the resolved room. -/
def setParticipantOnline (room : Room) (userId socketId : String) : Room :=
  { room with
      participants :=
        updateFirst (fun p => p.id == userId)
          (fun p => { p with isOnline := true, socketId := some socketId })
          room.participants }

/-- `RoomService.setParticipantOffline` (lines 207–219), on the resolved room. -/
def setParticipantOffline (room : Room) (socketId : String) : Room :=
  { room with
      participants :=
        updateFirst (fun p => p.socketId == some socketId)
          (fun p => { p with isOnline := false, socketId := none })
          room.participants }

/-- `currentRound.votes.findIndex(v => v.userId === userId)` followed by
`votes[i] = voteData` / `votes.push(voteData)`: `List.findIdx` returns the
list length when no element matches, mirroring `findIndex`'s `-1`. -/
def upsertVote (votes : List Vote) (userId : String) (voteData : Vote) :
    List Vote :=
  let existingVoteIndex := votes.findIdx (fun v => v.userId == userId)
  if existingVoteIndex < votes.length then
    votes.set existingVoteIndex voteData
  else
    votes ++ [voteData]

/-- `RoomService.submitVote` (lines 224–264), on the resolved room; `none`
models the `null` returns (missing current round / unknown participant),
`now` the `new Date()` stamp. -/
def submitVote (room : Room) (userId : String) (vote : CardValue)
    (now : Nat) : Option Room :=
  match room.rounds.get? room.currentRoundIndex with
  | none => none
  | some currentRound =>
    match room.participants.find? (fun p => p.id == userId) with
    | none => none
    | some participant =>
      let voteData : Vote :=
        { userId := userId
          userName := participant.name
          value := vote
          votedAt := now }
      let newVotes := upsertVote currentRound.votes userId voteData
      let newStatus :=
        if newVotes.length == room.participants.length
            && room.status == RoomStatus.waiting then
          RoomStatus.active
        else room.status
      some { room with
              rounds :=
                room.rounds.set room.currentRoundIndex
                  { currentRound with votes := newVotes }
              status := newStatus }

/-- `RoomService.allVoted` (lines 269–277), on the resolved room. -/
def allVoted (room : Room) : Bool :=
  match room.rounds.get? room.currentRoundIndex with
  | none => false
  | some currentRound =>
      currentRound.votes.length == room.participants.length

/-- `RoomService.revealVotes` (lines 282–299), on the resolved room. -/
def revealVotes (room : Room) (now : Nat) : Option Room :=
  match room.rounds.get? room.currentRoundIndex with
  | none => none
  | some currentRound =>
      some { room with
              rounds :=
                room.rounds.set room.currentRoundIndex
                  { currentRound with
                      status := RoundStatus.revealed
                      revealedAt := some now } }

/-- `RoomService.nextRound` (lines 304–329), on the resolved room.
`currentRoundIndex >= rounds.length - 1` is taken with truncated `Nat`
subtraction, which agrees with the JavaScript comparison (for `rounds = []`
both `0 >= -1` and `0 ≥ 0` hold).  The fallthrough arm of the inner `match`
is unreachable: in the `else` branch `currentRoundIndex + 1 < rounds.length`. -/
def nextRound (room : Room) : Room :=
  if room.currentRoundIndex ≥ room.rounds.length - 1 then
    { room with status := RoomStatus.completed }
  else
    let newIndex := room.currentRoundIndex + 1
    match room.rounds.get? newIndex with
    | some r =>
        { room with
            currentRoundIndex := newIndex
            rounds :=
              room.rounds.set newIndex
                { r with status := RoundStatus.voting, votes := [] } }
    | none => { room with currentRoundIndex := newIndex }

/-- One Store mutation targeting a given room, for stating properties over
arbitrary operation sequences (fresh ids and timestamps are carried in the
operation). -/
inductive StoreOp
  | addParticipant (userName freshId : String) (now : Nat)
  | removeParticipant (userId : String)
  | setParticipantOnline (userId socketId : String)
  | setParticipantOffline (socketId : String)
  | submitVote (userId : String) (vote : CardValue) (now : Nat)
  | revealVotes (now : Nat)
  | nextRound
deriving DecidableEq, Repr

/-- Effect of one Store operation on the room it resolves; an operation that
returns `null` in TypeScript has mutated nothing, so the room is unchanged. -/
def applyOp (room : Room) : StoreOp → Room
  | StoreOp.addParticipant u f n => (addParticipant room u f n).1
  | StoreOp.removeParticipant u => removeParticipant room u
  | StoreOp.setParticipantOnline u s => setParticipantOnline room u s
  | StoreOp.setParticipantOffline s => setParticipantOffline room s
  | StoreOp.submitVote u v n => (submitVote room u v n).getD room
  | StoreOp.revealVotes n => (revealVotes room n).getD room
  | StoreOp.nextRound => nextRound room

def applyOps (room : Room) (ops : List StoreOp) : Room :=
  ops.foldl applyOp room

/-! ### Session Gateway (`roomHandlers.ts`)

The repository's `roomHandlers.ts` holds two concatenated revisions.  Both
are embedded: `...V1` is the first revision (file lines 1–170: `create-room`
validates `userName` and `roundNames`; `submit-vote` auto-reveals once all
participants voted), `...V2` the second (file lines 171–393: `create-room`
validates only `userName`; `submit-vote` never reveals; `reveal-votes` and
`next-round` are host-gated).  A handler acts on the `Option Room` the
store lookup for the payload's `roomId` produced, and returns the room
state after the action together with the messages it emitted, in order. -/

/-- `!payload.userName?.trim()`: the string trims to empty exactly when it
has no non-whitespace character. -/
def isBlank (s : String) : Bool := s.data.all (fun c => c.isWhitespace)

inductive GatewayEmit
  | errorMsg (message : String)
  | roomUpdate (room : Room)
deriving DecidableEq, Repr

inductive CreateRoomResponse
  | ok (room : Room) (userId : String)
  | err (message : String)
deriving DecidableEq, Repr

def CreateRoomResponse.isOk : CreateRoomResponse → Bool
  | CreateRoomResponse.ok .. => true
  | CreateRoomResponse.err _ => false

/-- `create-room` handler, first revision (lines 14–60): rejects a blank
`userName` and an empty `roundNames` before touching the store. -/
def createRoomHandlerV1 (payload : CreateRoomPayload) (roomId userId : String)
    (rid : Nat → String) (now : Nat) : Option Room × CreateRoomResponse :=
  if isBlank payload.userName then
    (none, CreateRoomResponse.err "User name is required")
  else if payload.roundNames.isEmpty then
    (none, CreateRoomResponse.err "At least one round is required")
  else
    let result := createRoom payload roomId userId rid now
    (some result.1, CreateRoomResponse.ok result.1 result.2)

/-- `create-room` handler, second revision (lines 185–222): rejects only a
blank `userName`; `roundNames` is passed to the store unchecked. -/
def createRoomHandlerV2 (payload : CreateRoomPayload) (roomId userId : String)
    (rid : Nat → String) (now : Nat) : Option Room × CreateRoomResponse :=
  if isBlank payload.userName then
    (none, CreateRoomResponse.err "User name is required")
  else
    let result := createRoom payload roomId userId rid now
    (some result.1, CreateRoomResponse.ok result.1 result.2)

/-- `submit-vote` handler, first revision (lines 139–169): after a
successful vote it re-queries `allVoted` and, when true, auto-reveals. -/
def submitVoteHandlerV1 (roomState : Option Room) (userId : String)
    (vote : CardValue) (now : Nat) : Option Room × List GatewayEmit :=
  match roomState.bind (fun room => submitVote room userId vote now) with
  | none => (roomState, [GatewayEmit.errorMsg "Failed to submit vote"])
  | some room =>
    if allVoted room then
      match revealVotes room now with
      | some updatedRoom =>
          (some updatedRoom,
            [GatewayEmit.roomUpdate room, GatewayEmit.roomUpdate updatedRoom])
      | none => (some room, [GatewayEmit.roomUpdate room])
    else (some room, [GatewayEmit.roomUpdate room])

/-- `submit-vote` handler, second revision (lines 303–328): broadcasts the
updated room; a complete vote set is only logged, never auto-revealed. -/
def submitVoteHandlerV2 (roomState : Option Room) (userId : String)
    (vote : CardValue) (now : Nat) : Option Room × List GatewayEmit :=
  match roomState.bind (fun room => submitVote room userId vote now) with
  | none => (roomState, [GatewayEmit.errorMsg "Failed to submit vote"])
  | some room => (some room, [GatewayEmit.roomUpdate room])

/-- `reveal-votes` handler (second revision, lines 331–360): host-gated. -/
def revealVotesHandler (roomState : Option Room) (userId : String)
    (now : Nat) : Option Room × List GatewayEmit :=
  match roomState with
  | none => (none, [GatewayEmit.errorMsg "Room not found"])
  | some room =>
    match room.participants.find? (fun p => p.id == userId) with
    | none => (some room, [GatewayEmit.errorMsg "Only the host can reveal votes"])
    | some participant =>
      if participant.isCreator then
        match revealVotes room now with
        | some updatedRoom => (some updatedRoom, [GatewayEmit.roomUpdate updatedRoom])
        | none => (some room, [])
      else (some room, [GatewayEmit.errorMsg "Only the host can reveal votes"])

/-- `next-round` handler (second revision, lines 363–392): host-gated. -/
def nextRoundHandler (roomState : Option Room) (userId : String) :
    Option Room × List GatewayEmit :=
  match roomState with
  | none => (none, [GatewayEmit.errorMsg "Room not found"])
  | some room =>
    match room.participants.find? (fun p => p.id == userId) with
    | none => (some room, [GatewayEmit.errorMsg "Only the host can move to next round"])
    | some participant =>
      if participant.isCreator then
        let updatedRoom := nextRound room
        (some updatedRoom, [GatewayEmit.roomUpdate updatedRoom])
      else (some room, [GatewayEmit.errorMsg "Only the host can move to next round"])

/-! ### Derived counting functions and concrete sample states -/

/-- Number of participants flagged `isCreator`. -/
def creatorCount (l : List Participant) : Nat :=
  (l.filter (fun p => p.isCreator)).length

/-- Number of participants carrying a given display name. -/
def nameCount (l : List Participant) (userName : String) : Nat :=
  (l.filter (fun p => p.name == userName)).length

/-- Number of distinct voters in a vote list. -/
def distinctVoters (votes : List Vote) : Nat :=
  (votes.map (fun v => v.userId)).dedup.length

def sampleRid : Nat → String := fun i => "roundid" ++ toString i

/-- One-round room created by `"alice"` (`"host1"`). -/
def roomOne : Room :=
  (createRoom ⟨"alice", "R", ["A"], ⟨none, none⟩⟩ "room1" "host1" sampleRid 0).1

/-- Two-round room created by `"alice"` (`"host1"`). -/
def roomTwo : Room :=
  (createRoom ⟨"alice", "R", ["A", "B"], ⟨none, none⟩⟩ "room2" "host1" sampleRid 0).1

/-- `roomTwo` after `"bob"` (`"bob1"`) joined. -/
def roomJoined : Room := (addParticipant roomTwo "bob" "bob1" 1).1

/-- `roomOne` driven to its terminal state by `nextRound`. -/
def roomCompleted : Room := nextRound roomOne

/-- `roomJoined` with the current round revealed. -/
def roomRevealed : Room := (revealVotes roomJoined 2).getD roomJoined

/-- `create-room` payload with an empty `roundNames` list. -/
def emptyRoundsPayload : CreateRoomPayload := ⟨"alice", "R", [], ⟨none, none⟩⟩

/-- `create-room` payload with a blank (whitespace-only) `userName`. -/
def blankNamePayload : CreateRoomPayload := ⟨"   ", "R", ["A"], ⟨none, none⟩⟩

-- (end of definitions)

/-! ### Auxiliary lemmas -/

theorem updateFirst_length (pred : Participant → Bool)
    (f : Participant → Participant) (l : List Participant) :
    (updateFirst pred f l).length = l.length := by
  induction l with
  | nil => rfl
  | cons p ps ih =>
    by_cases hp : pred p = true
    · simp [updateFirst, hp]
    · simp [updateFirst, hp, ih]

theorem updateFirst_map {β : Type} (pred : Participant → Bool)
    (f : Participant → Participant) (g : Participant → β)
    (hg : ∀ p, g (f p) = g p) (l : List Participant) :
    (updateFirst pred f l).map g = l.map g := by
  induction l with
  | nil => rfl
  | cons p ps ih =>
    by_cases hp : pred p = true
    · simp [updateFirst, hp, hg]
    · simp [updateFirst, hp, ih]

theorem updateFirst_filter_length (pred q : Participant → Bool)
    (f : Participant → Participant) (hq : ∀ p, q (f p) = q p)
    (l : List Participant) :
    ((updateFirst pred f l).filter q).length = (l.filter q).length := by
  induction l with
  | nil => rfl
  | cons p ps ih =>
    by_cases hp : pred p = true
    · by_cases hqp : q p = true
      · simp [updateFirst, hp, List.filter_cons, hq, hqp]
      · simp [updateFirst, hp, List.filter_cons, hq, hqp]
    · by_cases hqp : q p = true
      · simp [updateFirst, hp, List.filter_cons, hqp, ih]
      · simp [updateFirst, hp, List.filter_cons, hqp, ih]

theorem find?_updateFirst (pred : Participant → Bool)
    (f : Participant → Participant)
    (hf : ∀ p, pred p = true → pred (f p) = true) (l : List Participant) :
    (updateFirst pred f l).find? pred = (l.find? pred).map f := by
  induction l with
  | nil => rfl
  | cons p ps ih =>
    by_cases hp : pred p = true
    · simp [updateFirst, hp, List.find?_cons_of_pos, hf p hp]
    · simp [updateFirst, hp, List.find?_cons_of_neg, ih]

theorem filter_and_length (q pred : Participant → Bool)
    (l : List Participant) (h : ∀ p ∈ l, q p = true → pred p = true) :
    (l.filter (fun a => q a && pred a)).length = (l.filter q).length := by
  induction l with
  | nil => rfl
  | cons p ps ih =>
    have hps : ∀ x ∈ ps, q x = true → pred x = true := by
      intro x hx; exact h x (List.mem_cons_of_mem _ hx)
    by_cases hq : q p = true
    · have hpred : pred p = true := h p (List.mem_cons_self _ _) hq
      simp [List.filter_cons, hq, hpred, ih hps]
    · simp [List.filter_cons, hq, ih hps]

theorem filter_length_filter_ne (q pred : Participant → Bool)
    (l : List Participant) (h : ∀ p ∈ l, q p = true → pred p = true) :
    ((l.filter pred).filter q).length = (l.filter q).length := by
  rw [List.filter_filter]
  exact filter_and_length q pred l h

/-- Writing back the value already stored at an index leaves a list unchanged. -/
theorem set_get?_self {α : Type} :
    ∀ (l : List α) (i : Nat) (a : α), l.get? i = some a → l.set i a = l
  | [], i, a, h => by cases h
  | x :: xs, 0, a, h => by
    simp only [List.get?] at h
    cases h
    rfl
  | x :: xs, i + 1, a, h => by
    simp only [List.get?] at h
    simp [List.set_cons_succ, set_get?_self xs i a h]

theorem map_set_same {α β : Type} (f : α → β) (l : List α) (i : Nat)
    (a b : α) (hb : l.get? i = some b) (hf : f a = f b) :
    (l.set i a).map f = l.map f := by
  have : (l.map f).get? i = some (f b) := by
    rw [List.get?_eq_getElem?] at hb ⊢
    simp [List.getElem?_map, hb]
  calc (l.set i a).map f = (l.map f).set i (f a) := by rw [List.map_set]
    _ = (l.map f).set i (f b) := by rw [hf]
    _ = l.map f := set_get?_self _ _ _ this

theorem upsertVote_nil (uid : String) (vd : Vote) :
    upsertVote [] uid vd = [vd] := rfl

theorem upsertVote_cons_pos (w : Vote) (ws : List Vote) (uid : String)
    (vd : Vote) (hw : (w.userId == uid) = true) :
    upsertVote (w :: ws) uid vd = vd :: ws := by
  unfold upsertVote
  simp [List.findIdx_cons, hw, List.set_cons_zero]

theorem upsertVote_cons_neg (w : Vote) (ws : List Vote) (uid : String)
    (vd : Vote) (hw : (w.userId == uid) = false) :
    upsertVote (w :: ws) uid vd = w :: upsertVote ws uid vd := by
  unfold upsertVote
  by_cases hlt : List.findIdx (fun v => v.userId == uid) ws < ws.length
  · simp only [List.findIdx_cons, hw, cond_false, List.length_cons,
      Nat.add_lt_add_iff_right, if_pos hlt, List.set_cons_succ]
  · simp only [List.findIdx_cons, hw, cond_false, List.length_cons,
      Nat.add_lt_add_iff_right, if_neg hlt, List.cons_append]

theorem upsertVote_filter (votes : List Vote) (uid : String) (vd : Vote)
    (hvd : vd.userId = uid)
    (hc : (votes.filter (fun w => w.userId == uid)).length ≤ 1) :
    (upsertVote votes uid vd).filter (fun w => w.userId == uid) = [vd] := by
  have hvdb : (vd.userId == uid) = true := by simp [hvd]
  induction votes with
  | nil =>
    rw [upsertVote_nil]
    simp only [List.filter_cons, if_pos hvdb, List.filter_nil]
  | cons w ws ih =>
    by_cases hw : (w.userId == uid) = true
    · rw [upsertVote_cons_pos w ws uid vd hw]
      have hlen : (List.filter (fun x => x.userId == uid) ws).length = 0 := by
        simp only [List.filter_cons, if_pos hw, List.length_cons] at hc
        omega
      rw [List.length_eq_zero] at hlen
      simp only [List.filter_cons, if_pos hvdb, hlen]
    · simp only [List.filter_cons, if_neg hw] at hc
      rw [upsertVote_cons_neg w ws uid vd (by simpa using hw)]
      simp only [List.filter_cons, if_neg hw]
      exact ih hc

theorem upsertVote_mem (votes : List Vote) (uid : String) (vd : Vote) :
    vd ∈ upsertVote votes uid vd := by
  unfold upsertVote
  by_cases hlt : List.findIdx (fun v => v.userId == uid) votes < votes.length
  · rw [if_pos hlt]
    have hlen : List.findIdx (fun v => v.userId == uid) votes
        < (votes.set (List.findIdx (fun v => v.userId == uid) votes) vd).length := by
      simpa [List.length_set] using hlt
    have := List.getElem_mem hlen
    rwa [List.getElem_set_self] at this
  · rw [if_neg hlt]
    simp

theorem upsertVote_length_other (votes : List Vote) (uid : String) (vd : Vote) :
    (upsertVote votes uid vd).length = votes.length
    ∨ (upsertVote votes uid vd).length = votes.length + 1 := by
  unfold upsertVote
  by_cases hlt : List.findIdx (fun v => v.userId == uid) votes < votes.length
  · rw [if_pos hlt]; left; exact List.length_set votes _ vd
  · rw [if_neg hlt]; right; simp

/-- Success-path equation for `submitVote`: with the current round and the
participant resolved, the result is the room with the vote upserted and the
`waiting → active` status promotion applied. -/
theorem submitVote_some (room : Room) (uid : String) (v : CardValue)
    (now : Nat) (currentRound : Round) (participant : Participant)
    (hget : room.rounds.get? room.currentRoundIndex = some currentRound)
    (hfind : room.participants.find? (fun p => p.id == uid) = some participant) :
    submitVote room uid v now =
      some { room with
              rounds :=
                room.rounds.set room.currentRoundIndex
                  { currentRound with
                      votes := upsertVote currentRound.votes uid
                        ⟨uid, participant.name, v, now⟩ }
              status :=
                if (upsertVote currentRound.votes uid
                      ⟨uid, participant.name, v, now⟩).length
                      == room.participants.length
                    && room.status == RoomStatus.waiting then
                  RoomStatus.active
                else room.status } := by
  unfold submitVote
  rw [hget, hfind]

/-- Inversion for `submitVote`: a successful call found a current round and
a participant, kept `currentRoundIndex`, `participants` and the per-round
statuses, and preserved the number of rounds. -/
theorem submitVote_inv {room room' : Room} {uid : String} {v : CardValue}
    {now : Nat} (h : submitVote room uid v now = some room') :
    room'.currentRoundIndex = room.currentRoundIndex
    ∧ room'.participants = room.participants
    ∧ room'.rounds.length = room.rounds.length
    ∧ room'.rounds.map (fun r => r.status) = room.rounds.map (fun r => r.status) := by
  unfold submitVote at h
  cases hget : room.rounds.get? room.currentRoundIndex with
  | none => rw [hget] at h; cases h
  | some currentRound =>
    rw [hget] at h
    cases hfind : room.participants.find? (fun p => p.id == uid) with
    | none => rw [hfind] at h; cases h
    | some participant =>
      rw [hfind] at h
      simp only [Option.some.injEq] at h
      subst h
      refine ⟨rfl, rfl, List.length_set _ _ _, ?_⟩
      exact map_set_same _ _ _ _ currentRound hget rfl

/-- Success-path equation for `revealVotes`. -/
theorem revealVotes_some (room : Room) (now : Nat) (currentRound : Round)
    (hget : room.rounds.get? room.currentRoundIndex = some currentRound) :
    revealVotes room now =
      some { room with
              rounds :=
                room.rounds.set room.currentRoundIndex
                  { currentRound with
                      status := RoundStatus.revealed
                      revealedAt := some now } } := by
  unfold revealVotes
  rw [hget]

/-- Inversion for `revealVotes`. -/
theorem revealVotes_inv {room room' : Room} {now : Nat}
    (h : revealVotes room now = some room') :
    room'.currentRoundIndex = room.currentRoundIndex
    ∧ room'.participants = room.participants
    ∧ room'.rounds.length = room.rounds.length := by
  unfold revealVotes at h
  cases hget : room.rounds.get? room.currentRoundIndex with
  | none => rw [hget] at h; cases h
  | some currentRound =>
    rw [hget] at h
    simp only [Option.some.injEq] at h
    subst h
    exact ⟨rfl, rfl, List.length_set _ _ _⟩

/-- `nextRound` on the last round (or past it): only `status` is written. -/
theorem nextRound_last (room : Room)
    (h : room.currentRoundIndex ≥ room.rounds.length - 1) :
    nextRound room = { room with status := RoomStatus.completed } := by
  unfold nextRound
  rw [if_pos h]

/-- `nextRound` strictly before the last round: the cursor advances by one
and the new current round is reset. -/
theorem nextRound_not_last {room : Room}
    (h : room.currentRoundIndex < room.rounds.length - 1) :
    ∃ r, room.rounds.get? (room.currentRoundIndex + 1) = some r
    ∧ nextRound room =
        { room with
            currentRoundIndex := room.currentRoundIndex + 1
            rounds :=
              room.rounds.set (room.currentRoundIndex + 1)
                { r with status := RoundStatus.voting, votes := [] } } := by
  have hlt : room.currentRoundIndex + 1 < room.rounds.length := by omega
  cases hget : room.rounds.get? (room.currentRoundIndex + 1) with
  | none => rw [List.get?_eq_none] at hget; omega
  | some r =>
    refine ⟨r, rfl, ?_⟩
    unfold nextRound
    rw [if_neg (by omega)]
    simp only [hget]

theorem nextRound_participants (room : Room) :
    (nextRound room).participants = room.participants := by
  by_cases h : room.currentRoundIndex ≥ room.rounds.length - 1
  · rw [nextRound_last room h]
  · obtain ⟨r, _, heq⟩ := @nextRound_not_last room (by omega)
    rw [heq]

theorem nextRound_rounds_length (room : Room) :
    (nextRound room).rounds.length = room.rounds.length := by
  by_cases h : room.currentRoundIndex ≥ room.rounds.length - 1
  · rw [nextRound_last room h]
  · obtain ⟨r, _, heq⟩ := @nextRound_not_last room (by omega)
    rw [heq]
    exact List.length_set _ _ _

/-- The round cursor either stays or advances by one, the latter only
strictly before the last round. -/
theorem applyOp_idx_cases (room : Room) (op : StoreOp) :
    (applyOp room op).currentRoundIndex = room.currentRoundIndex
    ∨ ((applyOp room op).currentRoundIndex = room.currentRoundIndex + 1
        ∧ room.currentRoundIndex < room.rounds.length - 1) := by
  cases op with
  | addParticipant u f n =>
    left
    show ((addParticipant room u f n).1).currentRoundIndex = _
    unfold addParticipant
    cases room.participants.find? (fun p => p.name == u) <;> rfl
  | removeParticipant u => left; rfl
  | setParticipantOnline u s => left; rfl
  | setParticipantOffline s => left; rfl
  | submitVote u v n =>
    left
    show ((submitVote room u v n).getD room).currentRoundIndex = _
    cases hs : submitVote room u v n with
    | none => rfl
    | some r' => exact (submitVote_inv hs).1
  | revealVotes n =>
    left
    show ((revealVotes room n).getD room).currentRoundIndex = _
    cases hs : revealVotes room n with
    | none => rfl
    | some r' => exact (revealVotes_inv hs).1
  | nextRound =>
    by_cases h : room.currentRoundIndex ≥ room.rounds.length - 1
    · left
      show (nextRound room).currentRoundIndex = _
      rw [nextRound_last room h]
    · right
      obtain ⟨r, _, heq⟩ := @nextRound_not_last room (by omega)
      constructor
      · show (nextRound room).currentRoundIndex = _
        rw [heq]
      · omega

theorem applyOp_rounds_length (room : Room) (op : StoreOp) :
    (applyOp room op).rounds.length = room.rounds.length := by
  cases op with
  | addParticipant u f n =>
    show ((addParticipant room u f n).1).rounds.length = _
    unfold addParticipant
    cases room.participants.find? (fun p => p.name == u) <;> rfl
  | removeParticipant u => rfl
  | setParticipantOnline u s => rfl
  | setParticipantOffline s => rfl
  | submitVote u v n =>
    show ((submitVote room u v n).getD room).rounds.length = _
    cases hs : submitVote room u v n with
    | none => rfl
    | some r' => exact (submitVote_inv hs).2.2.1
  | revealVotes n =>
    show ((revealVotes room n).getD room).rounds.length = _
    cases hs : revealVotes room n with
    | none => rfl
    | some r' => exact (revealVotes_inv hs).2.2
  | nextRound => exact nextRound_rounds_length room

theorem applyOp_idx_le (room : Room) (op : StoreOp) :
    room.currentRoundIndex ≤ (applyOp room op).currentRoundIndex := by
  rcases applyOp_idx_cases room op with h | ⟨h, _⟩ <;> omega

theorem applyOp_idx_lt (room : Room) (op : StoreOp)
    (h : room.currentRoundIndex < room.rounds.length) :
    (applyOp room op).currentRoundIndex < (applyOp room op).rounds.length := by
  have hlen := applyOp_rounds_length room op
  rcases applyOp_idx_cases room op with h' | ⟨h', h''⟩ <;> omega

theorem applyOps_idx_lt (ops : List StoreOp) (room : Room)
    (h : room.currentRoundIndex < room.rounds.length) :
    (applyOps room ops).currentRoundIndex < (applyOps room ops).rounds.length := by
  induction ops generalizing room with
  | nil => exact h
  | cons op ops ih => exact ih (applyOp room op) (applyOp_idx_lt room op h)

theorem creatorCount_updateFirst (pred : Participant → Bool)
    (f : Participant → Participant) (l : List Participant)
    (hf : ∀ p, (f p).isCreator = p.isCreator) :
    creatorCount (updateFirst pred f l) = creatorCount l :=
  updateFirst_filter_length pred (fun p => p.isCreator) f (fun p => hf p) l

theorem creatorCount_append_nonCreator (l : List Participant)
    (p : Participant) (hp : p.isCreator = false) :
    creatorCount (l ++ [p]) = creatorCount l := by
  unfold creatorCount
  rw [List.filter_append]
  simp [List.filter_cons, hp]

theorem creatorCount_remove (l : List Participant) (u : String)
    (h : ∀ p ∈ l, p.isCreator = true → p.id ≠ u) :
    creatorCount (l.filter (fun p => p.id != u)) = creatorCount l := by
  unfold creatorCount
  apply filter_length_filter_ne
  intro p hp hcr
  simpa [bne] using h p hp hcr

/-- Every Store operation except `removeParticipant` aimed at the creator
preserves the number of `isCreator` participants. -/
theorem applyOp_creatorCount (room : Room) (op : StoreOp)
    (h : ∀ u, op = StoreOp.removeParticipant u →
      ∀ p ∈ room.participants, p.isCreator = true → p.id ≠ u) :
    creatorCount (applyOp room op).participants
      = creatorCount room.participants := by
  cases op with
  | addParticipant u f n =>
    show creatorCount ((addParticipant room u f n).1).participants = _
    unfold addParticipant
    cases room.participants.find? (fun p => p.name == u) with
    | some q => exact creatorCount_updateFirst _ _ _ (fun p => rfl)
    | none => exact creatorCount_append_nonCreator _ _ rfl
  | removeParticipant u =>
    exact creatorCount_remove _ _ (h u rfl)
  | setParticipantOnline u s =>
    exact creatorCount_updateFirst _ _ _ (fun p => rfl)
  | setParticipantOffline s =>
    exact creatorCount_updateFirst _ _ _ (fun p => rfl)
  | submitVote u v n =>
    show creatorCount ((submitVote room u v n).getD room).participants = _
    cases hs : submitVote room u v n with
    | none => rfl
    | some r' => rw [Option.getD_some, (submitVote_inv hs).2.1]
  | revealVotes n =>
    show creatorCount ((revealVotes room n).getD room).participants = _
    cases hs : revealVotes room n with
    | none => rfl
    | some r' => rw [Option.getD_some, (revealVotes_inv hs).2.1]
  | nextRound =>
    show creatorCount (nextRound room).participants = _
    rw [nextRound_participants]

theorem room_eta_completed (room : Room)
    (h : room.status = RoomStatus.completed) :
    { room with status := RoomStatus.completed } = room := by
  cases room
  simp_all

theorem addParticipant_eq_found (room : Room) (userName freshId : String)
    (now : Nat) (q : Participant)
    (hq : room.participants.find? (fun p => p.name == userName) = some q) :
    addParticipant room userName freshId now =
      ({ room with
          participants :=
            updateFirst (fun p => p.name == userName)
              (fun p => { p with isOnline := true }) room.participants },
        q.id) := by
  unfold addParticipant
  rw [hq]

theorem addParticipant_eq_new (room : Room) (userName freshId : String)
    (now : Nat)
    (hq : room.participants.find? (fun p => p.name == userName) = none) :
    addParticipant room userName freshId now =
      ({ room with
          participants :=
            room.participants ++
              [{ id := freshId, name := userName, isCreator := false,
                 connectedAt := now, isOnline := true, socketId := none }] },
        freshId) := by
  unfold addParticipant
  rw [hq]

/-- After a rejoin, the first participant with the joined name is the old
record marked online. -/
theorem find?_after_rejoin (l : List Participant) (userName : String) :
    (updateFirst (fun p => p.name == userName)
        (fun p => { p with isOnline := true }) l).find?
      (fun p => p.name == userName)
    = (l.find? (fun p => p.name == userName)).map
        (fun p => { p with isOnline := true }) :=
  find?_updateFirst (fun p => p.name == userName)
    (fun p => { p with isOnline := true }) (fun p hp => hp) l

/-- After a fresh join, the first participant with the joined name is the
new record. -/
theorem find?_after_new (l : List Participant) (userName : String)
    (q : Participant) (hq : q.name = userName)
    (h : l.find? (fun p => p.name == userName) = none) :
    (l ++ [q]).find? (fun p => p.name == userName) = some q := by
  rw [List.find?_append, h]
  simp [List.find?_cons, hq]

theorem nameCount_updateFirst (pred : Participant → Bool)
    (f : Participant → Participant) (l : List Participant) (userName : String)
    (hf : ∀ p, (f p).name = p.name) :
    nameCount (updateFirst pred f l) userName = nameCount l userName :=
  updateFirst_filter_length pred (fun p => p.name == userName) f
    (fun p => by simp only [hf]) l

theorem nameCount_append_of_none (l : List Participant) (q : Participant)
    (userName : String) (hq : q.name = userName)
    (h : l.find? (fun p => p.name == userName) = none) :
    nameCount (l ++ [q]) userName = 1 := by
  unfold nameCount
  rw [List.filter_append]
  have hl : l.filter (fun p => p.name == userName) = [] := by
    rw [List.filter_eq_nil]
    exact List.find?_eq_none.mp h
  rw [hl]
  simp [List.filter_cons, hq]

/-! ### Claim theorems -/

/-- C1 counterexample: `roomCompleted` has `status = completed`, yet
`submitVote` still inserts a vote into its final round and `revealVotes`
still flips that round's status — the room is not left unchanged. -/
theorem C1_completed_still_mutable_counterexample :
    roomCompleted.status = RoomStatus.completed
    ∧ roomCompleted.rounds.map (fun r => r.votes.length) = [0]
    ∧ (submitVote roomCompleted "host1" (CardValue.num 5) 3).map
        (fun r => r.rounds.map (fun rd => rd.votes.length)) = some [1]
    ∧ roomCompleted.rounds.map (fun r => r.status) = [RoundStatus.voting]
    ∧ (revealVotes roomCompleted 3).map
        (fun r => r.rounds.map (fun rd => rd.status))
      = some [RoundStatus.revealed] :=
  ⟨by decide, by decide, by decide, by decide, by decide⟩

/-- C1 (amended): once `status = completed` (and the cursor is at or past
the last round, as every reachable completed room is), `nextRound` leaves
the room entirely unchanged, and neither `submitVote` nor `revealVotes`
moves `currentRoundIndex` or changes the number of rounds, so the cursor
never passes `rounds.length - 1`; voting and reveal themselves, however,
are still accepted on the final round. -/
theorem C1_completed_room_no_advance (room : Room)
    (hst : room.status = RoomStatus.completed)
    (hidx : room.rounds.length - 1 ≤ room.currentRoundIndex) :
    nextRound room = room
    ∧ (∀ uid v now r', submitVote room uid v now = some r' →
        r'.currentRoundIndex = room.currentRoundIndex
        ∧ r'.rounds.length = room.rounds.length)
    ∧ (∀ now r', revealVotes room now = some r' →
        r'.currentRoundIndex = room.currentRoundIndex
        ∧ r'.rounds.length = room.rounds.length) := by
  refine ⟨?_, ?_, ?_⟩
  · rw [nextRound_last room hidx]
    exact room_eta_completed room hst
  · intro uid v now r' h
    obtain ⟨h1, _, h3, _⟩ := submitVote_inv h
    exact ⟨h1, h3⟩
  · intro now r' h
    obtain ⟨h1, _, h3⟩ := revealVotes_inv h
    exact ⟨h1, h3⟩

theorem C1_completed_room_no_advance_witness :
    (roomCompleted.status = RoomStatus.completed
      ∧ roomCompleted.rounds.length - 1 ≤ roomCompleted.currentRoundIndex)
    ∧ (nextRound roomCompleted = roomCompleted
      ∧ (∀ uid v now r', submitVote roomCompleted uid v now = some r' →
          r'.currentRoundIndex = roomCompleted.currentRoundIndex
          ∧ r'.rounds.length = roomCompleted.rounds.length)
      ∧ (∀ now r', revealVotes roomCompleted now = some r' →
          r'.currentRoundIndex = roomCompleted.currentRoundIndex
          ∧ r'.rounds.length = roomCompleted.rounds.length)) :=
  ⟨⟨by decide, by decide⟩,
    C1_completed_room_no_advance roomCompleted (by decide) (by decide)⟩

theorem revealVotesHandler_some_eq (room : Room) (userId : String)
    (now : Nat) :
    revealVotesHandler (some room) userId now =
      match room.participants.find? (fun p => p.id == userId) with
      | none =>
          (some room, [GatewayEmit.errorMsg "Only the host can reveal votes"])
      | some participant =>
        if participant.isCreator then
          match revealVotes room now with
          | some updatedRoom =>
              (some updatedRoom, [GatewayEmit.roomUpdate updatedRoom])
          | none => (some room, [])
        else
          (some room, [GatewayEmit.errorMsg "Only the host can reveal votes"]) :=
  rfl

theorem nextRoundHandler_some_eq (room : Room) (userId : String) :
    nextRoundHandler (some room) userId =
      match room.participants.find? (fun p => p.id == userId) with
      | none =>
          (some room,
            [GatewayEmit.errorMsg "Only the host can move to next round"])
      | some participant =>
        if participant.isCreator then
          (some (nextRound room), [GatewayEmit.roomUpdate (nextRound room)])
        else
          (some room,
            [GatewayEmit.errorMsg "Only the host can move to next round"]) :=
  rfl

/-- C2: a `reveal-votes` or `next-round` action whose `userId` does not
name the creator participant of the (resolved) target room yields exactly
the authorization error to the caller and an unchanged room. -/
theorem C2_non_host_rejected (room : Room) (userId : String) (now : Nat)
    (h : ∀ p ∈ room.participants, p.id = userId → p.isCreator = false) :
    revealVotesHandler (some room) userId now
      = (some room, [GatewayEmit.errorMsg "Only the host can reveal votes"])
    ∧ nextRoundHandler (some room) userId
      = (some room, [GatewayEmit.errorMsg "Only the host can move to next round"]) := by
  constructor
  · rw [revealVotesHandler_some_eq]
    cases hf : room.participants.find? (fun p => p.id == userId) with
    | none => rfl
    | some participant =>
      have hpid : participant.id = userId := by
        have := List.find?_some hf
        simpa [beq_iff_eq] using this
      have hnc : participant.isCreator = false :=
        h participant (List.mem_of_find?_eq_some hf) hpid
      simp [hnc]
  · rw [nextRoundHandler_some_eq]
    cases hf : room.participants.find? (fun p => p.id == userId) with
    | none => rfl
    | some participant =>
      have hpid : participant.id = userId := by
        have := List.find?_some hf
        simpa [beq_iff_eq] using this
      have hnc : participant.isCreator = false :=
        h participant (List.mem_of_find?_eq_some hf) hpid
      simp [hnc]

theorem C2_non_host_rejected_witness :
    (∀ p ∈ roomJoined.participants, p.id = "bob1" → p.isCreator = false)
    ∧ (revealVotesHandler (some roomJoined) "bob1" 2
        = (some roomJoined, [GatewayEmit.errorMsg "Only the host can reveal votes"])
      ∧ nextRoundHandler (some roomJoined) "bob1"
        = (some roomJoined, [GatewayEmit.errorMsg "Only the host can move to next round"])) :=
  ⟨by decide, C2_non_host_rejected roomJoined "bob1" 2 (by decide)⟩

/-- C3 counterexample: through the first revision of the `submit-vote`
handler a vote that completes the vote set auto-reveals: `roomOne`'s only
round moves from `voting` to `revealed` by a submit-vote action alone. -/
theorem C3_submit_vote_autoreveal_counterexample :
    roomOne.rounds.map (fun r => r.status) = [RoundStatus.voting]
    ∧ (submitVoteHandlerV1 (some roomOne) "host1" (CardValue.num 5) 1).1.map
        (fun r => r.rounds.map (fun rd => rd.status))
      = some [RoundStatus.revealed] :=
  ⟨by decide, by decide⟩

/-- C3 (amended): through the second (current) revision of the
`submit-vote` handler, no submit-vote action ever changes any round's
status or the round cursor — in particular it never sets the current round
to `revealed`; the first revision, by contrast, auto-reveals once the
submitted vote completes the vote set. -/
theorem C3_submit_vote_never_reveals (roomState : Option Room)
    (userId : String) (vote : CardValue) (now : Nat) :
    (submitVoteHandlerV2 roomState userId vote now).1.map
        (fun r => (r.currentRoundIndex, r.rounds.map (fun rd => rd.status)))
      = roomState.map
        (fun r => (r.currentRoundIndex, r.rounds.map (fun rd => rd.status))) := by
  cases roomState with
  | none => rfl
  | some room =>
    unfold submitVoteHandlerV2
    have hb : (some room).bind (fun room => submitVote room userId vote now)
        = submitVote room userId vote now := rfl
    rw [hb]
    cases hs : submitVote room userId vote now with
    | none => rfl
    | some r' =>
      obtain ⟨h1, _, _, h4⟩ := submitVote_inv hs
      simp [h1, h4]

/-- C4 counterexample: the second revision of the `create-room` handler
accepts an empty `roundNames` list: the reply is a success and the created
room has `rounds.length = 0`. -/
theorem C4_empty_rounds_accepted_counterexample :
    (createRoomHandlerV2 emptyRoundsPayload "room9" "u9" sampleRid 0).2.isOk
      = true
    ∧ (createRoomHandlerV2 emptyRoundsPayload "room9" "u9" sampleRid 0).1.map
        (fun r => r.rounds.length) = some 0 :=
  ⟨by decide, by decide⟩

/-- C4 (amended): the first revision of the `create-room` handler rejects
a blank `userName` or an empty `roundNames` with a validation error and no
created room; the second revision performs only the blank-`userName` check,
so an empty `roundNames` passes through it to the Store. -/
theorem C4_create_room_validation (payload : CreateRoomPayload)
    (roomId userId : String) (rid : Nat → String) (now : Nat) :
    ((isBlank payload.userName = true ∨ payload.roundNames = []) →
      (createRoomHandlerV1 payload roomId userId rid now).1 = none
      ∧ (createRoomHandlerV1 payload roomId userId rid now).2.isOk = false)
    ∧ (isBlank payload.userName = true →
      (createRoomHandlerV2 payload roomId userId rid now).1 = none
      ∧ (createRoomHandlerV2 payload roomId userId rid now).2.isOk = false) := by
  constructor
  · intro h
    unfold createRoomHandlerV1
    by_cases hb : isBlank payload.userName = true
    · rw [if_pos hb]
      exact ⟨rfl, rfl⟩
    · have he : payload.roundNames.isEmpty = true := by
        rcases h with h | h
        · exact absurd h hb
        · simp [h]
      rw [if_neg hb, if_pos he]
      exact ⟨rfl, rfl⟩
  · intro hb
    unfold createRoomHandlerV2
    rw [if_pos hb]
    exact ⟨rfl, rfl⟩

theorem C4_create_room_validation_witness :
    (emptyRoundsPayload.roundNames = []
      ∧ isBlank blankNamePayload.userName = true)
    ∧ ((createRoomHandlerV1 emptyRoundsPayload "r0" "u0" sampleRid 0).1 = none
      ∧ (createRoomHandlerV1 emptyRoundsPayload "r0" "u0" sampleRid 0).2.isOk
          = false)
    ∧ ((createRoomHandlerV2 blankNamePayload "r0" "u0" sampleRid 0).1 = none
      ∧ (createRoomHandlerV2 blankNamePayload "r0" "u0" sampleRid 0).2.isOk
          = false) :=
  ⟨⟨by decide, by decide⟩,
    (C4_create_room_validation emptyRoundsPayload "r0" "u0" sampleRid 0).1
      (Or.inr rfl),
    (C4_create_room_validation blankNamePayload "r0" "u0" sampleRid 0).2
      (by decide)⟩

/-- C5: rejoin-by-name idempotence of `addParticipant`.  A join that finds
an existing participant with the same name returns that participant's id,
marks them online, and adds nothing; two successive joins under one name
return the same id, the second never grows the participant list, and a
fresh name ends up with exactly one entry carrying it. -/
theorem C5_addParticipant_idempotent (room : Room) (userName f1 f2 : String)
    (n1 n2 : Nat) (r1 r2 : Room) (id1 id2 : String)
    (h1 : addParticipant room userName f1 n1 = (r1, id1))
    (h2 : addParticipant r1 userName f2 n2 = (r2, id2)) :
    id2 = id1
    ∧ r2.participants.length = r1.participants.length
    ∧ (∀ q, room.participants.find? (fun p => p.name == userName) = some q →
        id1 = q.id
        ∧ r1.participants.length = room.participants.length
        ∧ r1.participants.find? (fun p => p.name == userName)
            = some { q with isOnline := true })
    ∧ (room.participants.find? (fun p => p.name == userName) = none →
        nameCount r1.participants userName = 1
        ∧ nameCount r2.participants userName = 1) := by
  cases hf : room.participants.find? (fun p => p.name == userName) with
  | some q =>
    rw [addParticipant_eq_found room userName f1 n1 q hf, Prod.mk.injEq] at h1
    obtain ⟨hr1, hid1⟩ := h1
    subst hr1
    subst hid1
    have hf1 : (updateFirst (fun p => p.name == userName)
          (fun p => { p with isOnline := true }) room.participants).find?
          (fun p => p.name == userName)
        = some { q with isOnline := true } := by
      rw [find?_after_rejoin, hf]
      rfl
    rw [addParticipant_eq_found _ userName f2 n2 _ hf1, Prod.mk.injEq] at h2
    obtain ⟨hr2, hid2⟩ := h2
    subst hr2
    subst hid2
    refine ⟨rfl, ?_, ?_, ?_⟩
    · exact updateFirst_length _ _ _
    · intro q' hq'
      injection hq' with hqq
      subst hqq
      exact ⟨rfl, updateFirst_length _ _ _, hf1⟩
    · intro hnone
      cases hnone
  | none =>
    rw [addParticipant_eq_new room userName f1 n1 hf, Prod.mk.injEq] at h1
    obtain ⟨hr1, hid1⟩ := h1
    subst hr1
    subst hid1
    have hf1 : (room.participants ++
          [({ id := f1, name := userName, isCreator := false,
              connectedAt := n1, isOnline := true,
              socketId := none } : Participant)]).find?
          (fun p => p.name == userName)
        = some ({ id := f1, name := userName, isCreator := false,
                  connectedAt := n1, isOnline := true,
                  socketId := none } : Participant) :=
      find?_after_new room.participants userName _ rfl hf
    rw [addParticipant_eq_found _ userName f2 n2 _ hf1, Prod.mk.injEq] at h2
    obtain ⟨hr2, hid2⟩ := h2
    subst hr2
    subst hid2
    refine ⟨rfl, ?_, ?_, ?_⟩
    · exact updateFirst_length _ _ _
    · intro q' hq'
      cases hq'
    · intro _
      constructor
      · exact nameCount_append_of_none room.participants _ userName rfl hf
      · rw [nameCount_updateFirst (fun p => p.name == userName)
          (fun p => { p with isOnline := true }) _ userName (fun p => rfl)]
        exact nameCount_append_of_none room.participants _ userName rfl hf

theorem C5_addParticipant_idempotent_witness :
    (addParticipant roomTwo "bob" "bob1" 1 = (roomJoined, "bob1")
      ∧ addParticipant roomJoined "bob" "bobX" 3
          = ((addParticipant roomJoined "bob" "bobX" 3).1, "bob1"))
    ∧ ("bob1" = "bob1"
      ∧ (addParticipant roomJoined "bob" "bobX" 3).1.participants.length
          = roomJoined.participants.length
      ∧ (∀ q, roomTwo.participants.find? (fun p => p.name == "bob") = some q →
          "bob1" = q.id
          ∧ roomJoined.participants.length = roomTwo.participants.length
          ∧ roomJoined.participants.find? (fun p => p.name == "bob")
              = some { q with isOnline := true })
      ∧ (roomTwo.participants.find? (fun p => p.name == "bob") = none →
          nameCount roomJoined.participants "bob" = 1
          ∧ nameCount (addParticipant roomJoined "bob" "bobX" 3).1.participants
              "bob" = 1)) :=
  ⟨⟨by decide, by decide⟩,
    C5_addParticipant_idempotent roomTwo "bob" "bob1" "bobX" 1 3 roomJoined
      (addParticipant roomJoined "bob" "bobX" 3).1 "bob1" "bob1" (by decide)
      (by decide)⟩

/-- C6: last-write-wins vote upsert.  If the current round and the voting
participant resolve and the round holds at most one vote for that
participant (true of every reachable state), `submitVote` succeeds, keeps
the cursor, and leaves exactly one vote for that participant — the one
just submitted, with its value and timestamp. -/
theorem C6_submitVote_last_write_wins (room : Room) (round : Round)
    (participant : Participant) (uid : String) (v : CardValue) (now : Nat)
    (hget : room.rounds.get? room.currentRoundIndex = some round)
    (hfind : room.participants.find? (fun p => p.id == uid) = some participant)
    (hc : (round.votes.filter (fun w => w.userId == uid)).length ≤ 1) :
    ∃ room', submitVote room uid v now = some room'
      ∧ room'.currentRoundIndex = room.currentRoundIndex
      ∧ ∃ round', room'.rounds.get? room'.currentRoundIndex = some round'
        ∧ round'.votes.filter (fun w => w.userId == uid)
            = [{ userId := uid, userName := participant.name, value := v,
                 votedAt := now }] := by
  refine ⟨_, submitVote_some room uid v now round participant hget hfind,
    rfl, ?_⟩
  refine ⟨({ round with
             votes := upsertVote round.votes uid
               ({ userId := uid, userName := participant.name, value := v,
                  votedAt := now } : Vote) } : Round), ?_, ?_⟩
  · show (room.rounds.set room.currentRoundIndex _).get?
        room.currentRoundIndex = _
    rw [List.get?_set_eq, hget]
    rfl
  · exact upsertVote_filter round.votes uid _ rfl hc

theorem C6_submitVote_last_write_wins_witness :
    (roomJoined.rounds.get? roomJoined.currentRoundIndex
        = some { id := "roundid0", name := "A", status := RoundStatus.voting,
                 votes := [], revealedAt := none }
      ∧ roomJoined.participants.find? (fun p => p.id == "bob1")
          = some { id := "bob1", name := "bob", isCreator := false,
                   connectedAt := 1, isOnline := true, socketId := none }
      ∧ (List.filter (fun w => w.userId == "bob1")
          ([] : List Vote)).length ≤ 1)
    ∧ (∃ room', submitVote roomJoined "bob1" (CardValue.num 8) 4 = some room'
        ∧ room'.currentRoundIndex = roomJoined.currentRoundIndex
        ∧ ∃ round', room'.rounds.get? room'.currentRoundIndex = some round'
          ∧ round'.votes.filter (fun w => w.userId == "bob1")
              = [{ userId := "bob1", userName := "bob",
                   value := CardValue.num 8, votedAt := 4 }]) :=
  ⟨⟨by decide, by decide, by decide⟩,
    C6_submitVote_last_write_wins roomJoined
      { id := "roundid0", name := "A", status := RoundStatus.voting,
        votes := [], revealedAt := none }
      { id := "bob1", name := "bob", isCreator := false, connectedAt := 1,
        isOnline := true, socketId := none }
      "bob1" (CardValue.num 8) 4 (by decide) (by decide) (by decide)⟩

theorem allVoted_eq (room : Room) (round : Round)
    (hget : room.rounds.get? room.currentRoundIndex = some round) :
    allVoted room = (round.votes.length == room.participants.length) := by
  unfold allVoted
  rw [hget]

/-- C7: `allVoted` compares the current round's vote count (distinct
voters, under the no-duplicate-votes invariant of reachable states) with
the participant count, mutates nothing (it is a plain function of the
room), and is false right after `nextRound` advanced the cursor, the new
current round having been reset to an empty vote list. -/
theorem C7_allVoted_spec (room : Room) (round : Round)
    (hget : room.rounds.get? room.currentRoundIndex = some round)
    (hnd : (round.votes.map (fun v => v.userId)).Nodup)
    (hadv : room.currentRoundIndex < room.rounds.length - 1)
    (hp : 1 ≤ room.participants.length) :
    (allVoted room = true
      ↔ distinctVoters round.votes = room.participants.length)
    ∧ allVoted (nextRound room) = false := by
  constructor
  · rw [allVoted_eq room round hget]
    unfold distinctVoters
    rw [List.Nodup.dedup hnd, List.length_map]
    exact beq_iff_eq
  · obtain ⟨r, hr, heq⟩ := @nextRound_not_last room hadv
    rw [heq]
    have hget' : (room.rounds.set (room.currentRoundIndex + 1)
          { r with status := RoundStatus.voting, votes := [] }).get?
          (room.currentRoundIndex + 1)
        = some { r with status := RoundStatus.voting, votes := [] } := by
      rw [List.get?_set_eq, hr]
      rfl
    rw [allVoted_eq _ _ hget']
    cases hq : room.participants.length with
    | zero => omega
    | succ n => rfl

theorem C7_allVoted_spec_witness :
    (roomTwo.rounds.get? roomTwo.currentRoundIndex
        = some { id := "roundid0", name := "A", status := RoundStatus.voting,
                 votes := [], revealedAt := none }
      ∧ (([] : List Vote).map (fun v => v.userId)).Nodup
      ∧ roomTwo.currentRoundIndex < roomTwo.rounds.length - 1
      ∧ 1 ≤ roomTwo.participants.length)
    ∧ ((allVoted roomTwo = true
        ↔ distinctVoters ([] : List Vote) = roomTwo.participants.length)
      ∧ allVoted (nextRound roomTwo) = false) :=
  ⟨⟨by decide, by decide, by decide, by decide⟩,
    C7_allVoted_spec roomTwo
      { id := "roundid0", name := "A", status := RoundStatus.voting,
        votes := [], revealedAt := none }
      (by decide) (by decide) (by decide) (by decide)⟩

theorem createRoom_rounds_length (payload : CreateRoomPayload)
    (roomId userId : String) (rid : Nat → String) (now : Nat) :
    (createRoom payload roomId userId rid now).1.rounds.length
      = payload.roundNames.length := by
  show ((List.range payload.roundNames.length).zip payload.roundNames
      |>.map _).length = _
  rw [List.length_map, List.length_zip, List.length_range]
  exact Nat.min_self _

/-- C8 counterexample: `createRoom` on an empty `roundNames` list (which
the second create-room handler revision lets through) yields a room with
`currentRoundIndex = 0` and `rounds.length = 0`, so the cursor is not in
`[0, rounds.length)`. -/
theorem C8_empty_rounds_counterexample :
    (applyOps (createRoom emptyRoundsPayload "room0" "u0" sampleRid 0).1
        []).currentRoundIndex = 0
    ∧ (applyOps (createRoom emptyRoundsPayload "room0" "u0" sampleRid 0).1
        []).rounds.length = 0 :=
  ⟨by decide, by decide⟩

/-- C8 (amended): for every room created from a NON-EMPTY `roundNames`
and every sequence of Store operations, `currentRoundIndex` stays in
`[0, rounds.length)`, no single further operation ever decreases it, and
`nextRound` on the last index rewrites only `status` to `completed`
without moving the index. -/
theorem C8_currentRoundIndex_invariant (payload : CreateRoomPayload)
    (roomId userId : String) (rid : Nat → String) (now : Nat)
    (ops : List StoreOp) (h : payload.roundNames ≠ []) :
    (applyOps (createRoom payload roomId userId rid now).1 ops).currentRoundIndex
        < (applyOps (createRoom payload roomId userId rid now).1 ops).rounds.length
    ∧ (∀ op, (applyOps (createRoom payload roomId userId rid now).1 ops).currentRoundIndex
        ≤ (applyOp (applyOps (createRoom payload roomId userId rid now).1 ops)
            op).currentRoundIndex)
    ∧ ((applyOps (createRoom payload roomId userId rid now).1 ops).currentRoundIndex
          = (applyOps (createRoom payload roomId userId rid now).1 ops).rounds.length - 1 →
        nextRound (applyOps (createRoom payload roomId userId rid now).1 ops)
          = { applyOps (createRoom payload roomId userId rid now).1 ops with
                status := RoomStatus.completed }) := by
  have h0 : (createRoom payload roomId userId rid now).1.currentRoundIndex
      < (createRoom payload roomId userId rid now).1.rounds.length := by
    rw [createRoom_rounds_length]
    show 0 < payload.roundNames.length
    exact List.length_pos.mpr h
  exact ⟨applyOps_idx_lt ops _ h0, fun op => applyOp_idx_le _ op,
    fun hl => nextRound_last _ (by omega)⟩

theorem C8_currentRoundIndex_invariant_witness :
    ((["A"] : List String) ≠ []
      ∧ (applyOps (createRoom ⟨"alice", "R", ["A"], ⟨none, none⟩⟩ "room1"
          "host1" sampleRid 0).1 [StoreOp.nextRound]).currentRoundIndex
        = 0)
    ∧ ((applyOps (createRoom ⟨"alice", "R", ["A"], ⟨none, none⟩⟩ "room1"
          "host1" sampleRid 0).1 [StoreOp.nextRound]).currentRoundIndex
        < (applyOps (createRoom ⟨"alice", "R", ["A"], ⟨none, none⟩⟩ "room1"
            "host1" sampleRid 0).1 [StoreOp.nextRound]).rounds.length
      ∧ (∀ op, (applyOps (createRoom ⟨"alice", "R", ["A"], ⟨none, none⟩⟩
            "room1" "host1" sampleRid 0).1 [StoreOp.nextRound]).currentRoundIndex
          ≤ (applyOp (applyOps (createRoom ⟨"alice", "R", ["A"], ⟨none, none⟩⟩
              "room1" "host1" sampleRid 0).1 [StoreOp.nextRound])
              op).currentRoundIndex)
      ∧ ((applyOps (createRoom ⟨"alice", "R", ["A"], ⟨none, none⟩⟩ "room1"
            "host1" sampleRid 0).1 [StoreOp.nextRound]).currentRoundIndex
            = (applyOps (createRoom ⟨"alice", "R", ["A"], ⟨none, none⟩⟩ "room1"
                "host1" sampleRid 0).1 [StoreOp.nextRound]).rounds.length - 1 →
          nextRound (applyOps (createRoom ⟨"alice", "R", ["A"], ⟨none, none⟩⟩
              "room1" "host1" sampleRid 0).1 [StoreOp.nextRound])
            = { applyOps (createRoom ⟨"alice", "R", ["A"], ⟨none, none⟩⟩ "room1"
                  "host1" sampleRid 0).1 [StoreOp.nextRound] with
                  status := RoomStatus.completed })) :=
  ⟨⟨by decide, by decide⟩,
    C8_currentRoundIndex_invariant ⟨"alice", "R", ["A"], ⟨none, none⟩⟩ "room1"
      "host1" sampleRid 0 [StoreOp.nextRound] (by decide)⟩

/-- C9 counterexample: `removeParticipant` can delete the creator:
starting from a fresh room (exactly one `isCreator` participant), removing
the creator's id leaves zero creators. -/
theorem C9_remove_creator_counterexample :
    creatorCount roomOne.participants = 1
    ∧ creatorCount (removeParticipant roomOne "host1").participants = 0 :=
  ⟨by decide, by decide⟩

/-- C9 (amended): `createRoom` establishes exactly one `isCreator`
participant, and every Store operation other than a `removeParticipant`
naming the creator's own id preserves that count; removing the creator,
however, breaks the invariant. -/
theorem C9_creator_count (payload : CreateRoomPayload)
    (roomId userId : String) (rid : Nat → String) (now : Nat) (room : Room)
    (op : StoreOp)
    (hop : ∀ u, op = StoreOp.removeParticipant u →
      ∀ p ∈ room.participants, p.isCreator = true → p.id ≠ u) :
    creatorCount (createRoom payload roomId userId rid now).1.participants = 1
    ∧ (creatorCount room.participants = 1 →
        creatorCount (applyOp room op).participants = 1) := by
  constructor
  · rfl
  · intro h1
    rw [applyOp_creatorCount room op hop]
    exact h1

theorem C9_creator_count_witness :
    ((∀ u, StoreOp.removeParticipant "bob1" = StoreOp.removeParticipant u →
        ∀ p ∈ roomJoined.participants, p.isCreator = true → p.id ≠ u)
      ∧ creatorCount roomJoined.participants = 1)
    ∧ (creatorCount (createRoom ⟨"alice", "R", ["A"], ⟨none, none⟩⟩ "room1"
          "host1" sampleRid 0).1.participants = 1
      ∧ (creatorCount roomJoined.participants = 1 →
          creatorCount (applyOp roomJoined
            (StoreOp.removeParticipant "bob1")).participants = 1)) :=
  ⟨⟨by intro u hu; injection hu with h; subst h; decide, by decide⟩,
    C9_creator_count ⟨"alice", "R", ["A"], ⟨none, none⟩⟩ "room1" "host1"
      sampleRid 0 roomJoined (StoreOp.removeParticipant "bob1")
      (by intro u hu; injection hu with h; subst h; decide)⟩

/-- C10: `submitVote` never inspects the current round's status.  On a
room whose current round is already `revealed`, with a known participant,
it still succeeds, the submitted vote lands in the revealed round's vote
list, and the round's status stays `revealed`. -/
theorem C10_submitVote_ignores_status (room : Room) (round : Round)
    (participant : Participant) (uid : String) (v : CardValue) (now : Nat)
    (hget : room.rounds.get? room.currentRoundIndex = some round)
    (hst : round.status = RoundStatus.revealed)
    (hfind : room.participants.find? (fun p => p.id == uid) = some participant) :
    ∃ room', submitVote room uid v now = some room'
      ∧ ∃ round', room'.rounds.get? room'.currentRoundIndex = some round'
        ∧ round'.status = RoundStatus.revealed
        ∧ ({ userId := uid, userName := participant.name, value := v,
             votedAt := now } : Vote) ∈ round'.votes := by
  refine ⟨_, submitVote_some room uid v now round participant hget hfind, ?_⟩
  refine ⟨({ round with
             votes := upsertVote round.votes uid
               ({ userId := uid, userName := participant.name, value := v,
                  votedAt := now } : Vote) } : Round), ?_, hst, ?_⟩
  · show (room.rounds.set room.currentRoundIndex _).get?
        room.currentRoundIndex = _
    rw [List.get?_set_eq, hget]
    rfl
  · exact upsertVote_mem round.votes uid _

theorem C10_submitVote_ignores_status_witness :
    (roomRevealed.rounds.get? roomRevealed.currentRoundIndex
        = some { id := "roundid0", name := "A",
                 status := RoundStatus.revealed, votes := [],
                 revealedAt := some 2 }
      ∧ RoundStatus.revealed = RoundStatus.revealed
      ∧ roomRevealed.participants.find? (fun p => p.id == "bob1")
          = some { id := "bob1", name := "bob", isCreator := false,
                   connectedAt := 1, isOnline := true, socketId := none })
    ∧ (∃ room', submitVote roomRevealed "bob1" (CardValue.str "?") 5
          = some room'
        ∧ ∃ round', room'.rounds.get? room'.currentRoundIndex = some round'
          ∧ round'.status = RoundStatus.revealed
          ∧ ({ userId := "bob1", userName := "bob",
               value := CardValue.str "?", votedAt := 5 } : Vote)
              ∈ round'.votes) :=
  ⟨⟨by decide, rfl, by decide⟩,
    C10_submitVote_ignores_status roomRevealed
      { id := "roundid0", name := "A", status := RoundStatus.revealed,
        votes := [], revealedAt := some 2 }
      { id := "bob1", name := "bob", isCreator := false, connectedAt := 1,
        isOnline := true, socketId := none }
      "bob1" (CardValue.str "?") 5 (by decide) rfl (by decide)⟩
